import Mathlib

set_option maxHeartbeats 1000000

/-!
Verification development for the in-memory data layer of the relay service
(`src/models/redis.js`, class `MemoryRedisClient` plus the lock helpers
attached to the exported singleton).

The JavaScript `Map` objects backing the store are modelled as association
lists with string keys; `Date.now()` is modelled as an explicit `now : Int`
parameter (epoch milliseconds), passed once per operation, matching the
single `const now = Date.now()` capture in each method.
-/

namespace CRS

/-- Lookup in an association list (models `Map.get`). -/
def alookup {α : Type} : List (String × α) → String → Option α
  | [], _ => none
  | p :: rest, k => if p.1 = k then some p.2 else alookup rest k

/-- Insert-or-update in an association list (models `Map.set`). -/
def aset {α : Type} : List (String × α) → String → α → List (String × α)
  | [], k, v => [(k, v)]
  | p :: rest, k, v => if p.1 = k then (k, v) :: rest else p :: aset rest k v

/-- Remove a key from an association list (models `Map.delete`). -/
def aremove {α : Type} : List (String × α) → String → List (String × α)
  | [], _ => []
  | p :: rest, k => if p.1 = k then aremove rest k else p :: aremove rest k

theorem alookup_aset {α : Type} (l : List (String × α)) (k k' : String) (v : α) :
    alookup (aset l k v) k' = if k' = k then some v else alookup l k' := by
  induction l with
  | nil =>
    by_cases h : k' = k
    · simp [aset, alookup, h]
    · simp [aset, alookup, h, Ne.symm h]
  | cons p rest ih =>
    by_cases hp : p.1 = k
    · by_cases h : k' = k
      · simp [aset, alookup, hp, h]
      · simp [aset, alookup, hp, h, Ne.symm h]
    · by_cases h : p.1 = k'
      · have hne : ¬ k' = k := fun hh => hp (h.trans hh)
        simp [aset, alookup, hp, h, hne]
      · simp [aset, alookup, hp, h, ih]

theorem alookup_aremove {α : Type} (l : List (String × α)) (k k' : String) :
    alookup (aremove l k) k' = if k' = k then none else alookup l k' := by
  induction l with
  | nil => simp [aremove, alookup]
  | cons p rest ih =>
    by_cases hp : p.1 = k
    · by_cases h : k' = k
      · subst h
        simp [aremove, alookup, hp, ih]
      · simp [aremove, alookup, hp, h, Ne.symm h, ih]
    · by_cases h : p.1 = k'
      · have hne : ¬ k' = k := fun hh => hp (h.trans hh)
        simp [aremove, alookup, hp, h, hne]
      · simp [aremove, alookup, hp, h, ih]

theorem mem_aset {α : Type} (l : List (String × α)) (k : String) (v : α)
    (p : String × α) (hp : p ∈ aset l k v) : p = (k, v) ∨ p ∈ l := by
  induction l with
  | nil =>
    simp [aset] at hp
    exact Or.inl hp
  | cons q rest ih =>
    by_cases hq : q.1 = k
    · simp [aset, hq] at hp
      rcases hp with h | h
      · exact Or.inl h
      · exact Or.inr (List.mem_cons_of_mem q h)
    · simp [aset, hq] at hp
      rcases hp with h | h
      · exact Or.inr (by simp [h])
      · rcases ih h with h1 | h1
        · exact Or.inl h1
        · exact Or.inr (List.mem_cons_of_mem q h1)

theorem one_le_length_aset {α : Type} (l : List (String × α)) (k : String) (v : α) :
    1 ≤ (aset l k v).length := by
  induction l with
  | nil => simp [aset]
  | cons q rest ih =>
    by_cases hq : q.1 = k <;> simp [aset, hq]

theorem alookup_eq_none_iff {α : Type} (l : List (String × α)) (k : String) :
    alookup l k = none ↔ ∀ p ∈ l, p.1 ≠ k := by
  induction l with
  | nil => simp [alookup]
  | cons q rest ih =>
    by_cases hq : q.1 = k <;> simp [alookup, hq, ih]

theorem alookup_filter_of_nodupKeys {α : Type} (l : List (String × α)) (k : String)
    (q : α → Bool) (hnd : (l.map Prod.fst).Nodup) :
    alookup (l.filter (fun p => q p.2)) k
      = (alookup l k).bind (fun v => if q v then some v else none) := by
  induction l with
  | nil => simp [alookup]
  | cons p rest ih =>
    have hnd' : (rest.map Prod.fst).Nodup := (List.nodup_cons.mp hnd).2
    have hnotin : p.1 ∉ rest.map Prod.fst := (List.nodup_cons.mp hnd).1
    by_cases hp : p.1 = k
    · have hrest : alookup rest k = none := by
        rw [alookup_eq_none_iff]
        intro r hr
        intro hrk
        exact hnotin (by rw [← hp] at hrk; exact hrk ▸ List.mem_map_of_mem Prod.fst hr)
      by_cases hqp : q p.2
      · simp [List.filter, alookup, hp, hqp]
      · have : alookup (List.filter (fun p => q p.2) rest) k = none := by
          rw [alookup_eq_none_iff]
          intro r hr
          exact (alookup_eq_none_iff rest k).mp hrest r (List.mem_of_mem_filter hr)
        simp [List.filter, alookup, hp, hqp, this]
    · by_cases hqp : q p.2
      · simp [List.filter, alookup, hp, hqp, ih hnd']
      · simp [List.filter, alookup, hp, hqp, ih hnd']

theorem aremove_eq_self_of_alookup_none {α : Type} (l : List (String × α)) (k : String)
    (h : alookup l k = none) : aremove l k = l := by
  induction l with
  | nil => simp [aremove]
  | cons p rest ih =>
    by_cases hp : p.1 = k
    · simp [alookup, hp] at h
    · simp [alookup, hp] at h
      simp [aremove, hp, ih h]

theorem alookup_aremove_all {α : Type} (l : List (String × α)) (k : String) :
    alookup (aremove l k) k = none := by
  rw [alookup_aremove]
  simp

/-! ### Concurrency lease tracking (`incrConcurrency` / `refreshConcurrencyLease` /
`decrConcurrency` / `getConcurrency`, lines 1447-1551)

A single concurrency key `concurrency:<apiKeyId>` is modelled by the zset
entry stored in `this.zsets` together with the key's entry in `this.ttls`.
`zset = none` means the key is absent from the `zsets` map (JavaScript
`Map.has` false); `some l` is the member → score map. -/

structure CKey where
  zset : Option (List (String × Int))
  ttl : Option Int
deriving DecidableEq, Repr

/-- Models `_isExpired(key)` (line 85): true iff the `ttls` map holds a
timestamp that is ≤ now. -/
def isExpired (c : CKey) (now : Int) : Bool :=
  match c.ttl with
  | none => false
  | some t => t ≤ now

/-- Models `zremrangebyscore(key, '-inf', now)` (line 400): removes every
member whose score is ≥ -inf and ≤ now, i.e. keeps members with score > now.
The removed-count return value is unused by all callers and omitted. -/
def zremrangebyscore (c : CKey) (now : Int) : CKey :=
  match c.zset with
  | none => c
  | some l => { c with zset := some (l.filter (fun p => decide (now < p.2))) }

/-- Models `zadd(key, score, member)` (line 357): creates the zset when the
key is absent, then inserts or updates the member's score. -/
def zadd (c : CKey) (score : Int) (member : String) : CKey :=
  { c with zset := some (aset (c.zset.getD []) member score) }

/-- Models `zrem(key, member)` (line 373): no-op when the key is absent. -/
def zrem (c : CKey) (member : String) : CKey :=
  match c.zset with
  | none => c
  | some l => { c with zset := some (aremove l member) }

/-- Models `zcard(key)` (line 384): an expired key is purged from the zsets
map (its `ttls` entry is left behind, exactly as in the source) and reported
as 0; otherwise the zset's size is returned. -/
def zcard (c : CKey) (now : Int) : Nat × CKey :=
  if isExpired c now then (0, { c with zset := none })
  else
    match c.zset with
    | none => (0, c)
    | some l => (l.length, c)

/-- Models `zscore(key, member)` (line 393); it does not consult the TTL. -/
def zscore (c : CKey) (member : String) : Option Int :=
  match c.zset with
  | none => none
  | some l => alookup l member

/-- Models `_getConcurrencyConfig()` (line 1434): defaults 300/30/30 merged
with `config.concurrency`; the theorems quantify over the merged result. -/
structure CConfig where
  leaseSeconds : Int
  renewIntervalSeconds : Int
  cleanupGraceSeconds : Int
deriving DecidableEq, Repr

/-- Models `leaseSeconds || defaultLeaseSeconds`: `none` stands for the
JavaScript `null` default argument, and `0` is falsy. -/
def resolveLease (cfg : CConfig) (leaseSeconds : Option Int) : Int :=
  match leaseSeconds with
  | none => cfg.leaseSeconds
  | some v => if v = 0 then cfg.leaseSeconds else v

/-- The body of `incrConcurrency` (lines 1452-1474): sweep expired members,
add `(requestId, now + lease·1000)`, set the key TTL, return the new
cardinality. -/
def incrConcurrencyBody (cfg : CConfig) (c : CKey) (requestId : String)
    (leaseSeconds : Option Int) (now : Int) : Nat × CKey :=
  let lease := resolveLease cfg leaseSeconds
  let expireAt := now + lease * 1000
  let ttlv := max ((lease + cfg.cleanupGraceSeconds) * 1000) 60000
  let c1 := zremrangebyscore c now
  let c2 := zadd c1 expireAt requestId
  let c3 := if 0 < ttlv then { c2 with ttl := some (now + ttlv) } else c2
  zcard c3 now

/-- Models `incrConcurrency` (line 1447). The `backend` argument models
whether a storage call inside the `try` block raises; the catch block
re-throws (`throw error`), so a backend error propagates. The empty
`requestId` check happens before the `try`. -/
def incrConcurrency (backend : Except String Unit) (cfg : CConfig) (c : CKey)
    (requestId : String) (leaseSeconds : Option Int) (now : Int) :
    Except String (Nat × CKey) :=
  if requestId = "" then
    Except.error "Request ID is required for concurrency tracking"
  else
    match backend with
    | Except.error e => Except.error e
    | Except.ok _ => Except.ok (incrConcurrencyBody cfg c requestId leaseSeconds now)

/-- The body of `getConcurrency` (lines 1542-1546): sweep then cardinality. -/
def getConcurrencyBody (c : CKey) (now : Int) : Nat × CKey :=
  zcard (zremrangebyscore c now) now

/-- Models `getConcurrency` (line 1540): its catch block logs and returns 0,
so a backend error is swallowed and 0 is returned instead. -/
def getConcurrency (backend : Except String Unit) (c : CKey) (now : Int) :
    Nat × CKey :=
  match backend with
  | Except.error _ => (0, c)
  | Except.ok _ => getConcurrencyBody c now

/-- The body of `refreshConcurrencyLease` (lines 1486-1506): sweep, then if
the member still has a score, update it, refresh the key TTL and return 1;
otherwise return 0 without re-adding. -/
def refreshConcurrencyLeaseBody (cfg : CConfig) (c : CKey) (requestId : String)
    (leaseSeconds : Option Int) (now : Int) : Nat × CKey :=
  let lease := resolveLease cfg leaseSeconds
  let expireAt := now + lease * 1000
  let ttlv := max ((lease + cfg.cleanupGraceSeconds) * 1000) 60000
  let c1 := zremrangebyscore c now
  match zscore c1 requestId with
  | some _ =>
      let c2 := zadd c1 expireAt requestId
      let c3 := if 0 < ttlv then { c2 with ttl := some (now + ttlv) } else c2
      (1, c3)
  | none => (0, c1)

/-- Models `refreshConcurrencyLease` (line 1481): a falsy `requestId` returns
0 immediately; the catch block logs and returns 0, swallowing backend
errors. -/
def refreshConcurrencyLease (backend : Except String Unit) (cfg : CConfig)
    (c : CKey) (requestId : String) (leaseSeconds : Option Int) (now : Int) :
    Nat × CKey :=
  if requestId = "" then (0, c)
  else
    match backend with
    | Except.error _ => (0, c)
    | Except.ok _ => refreshConcurrencyLeaseBody cfg c requestId leaseSeconds now

/-- The body of `decrConcurrency` (lines 1515-1533): remove the member (when
truthy), sweep, read cardinality; when it is ≤ 0 delete the key entirely and
return 0. -/
def decrConcurrencyBody (c : CKey) (requestId : String) (now : Int) : Nat × CKey :=
  let c1 := if requestId = "" then c else zrem c requestId
  let c2 := zremrangebyscore c1 now
  let r := zcard c2 now
  if r.1 = 0 then (0, { zset := none, ttl := none }) else r

/-- Models `decrConcurrency` (line 1513): the catch block re-throws, so a
backend error propagates. -/
def decrConcurrency (backend : Except String Unit) (c : CKey)
    (requestId : String) (now : Int) : Except String (Nat × CKey) :=
  match backend with
  | Except.error e => Except.error e
  | Except.ok _ => Except.ok (decrConcurrencyBody c requestId now)

/-- The members of a concurrency key that are still live at `now`
(score strictly greater than `now`). -/
def liveEntries (c : CKey) (now : Int) : List (String × Int) :=
  (c.zset.getD []).filter (fun p => decide (now < p.2))

/-- The number of live members visible at `now`: 0 when the key's own TTL has
expired, otherwise the count of members with score > now. -/
def liveCount (c : CKey) (now : Int) : Nat :=
  if isExpired c now then 0 else (liveEntries c now).length

/-! ### Distributed lock (`set` with NX, `setAccountLock`, `releaseAccountLock`,
lines 143-163 and 1694-1716)

A single lock key is modelled by its entry in the plain string store
(`value = none` means `this.store.has(key)` is false) together with its
entry in `this.ttls`. -/

structure LockKey where
  value : Option String
  expire : Option Int
deriving DecidableEq, Repr

/-- Models `_isExpired(key)` for a lock key. -/
def lockIsExpired (k : LockKey) (now : Int) : Bool :=
  match k.expire with
  | none => false
  | some t => t ≤ now

/-- Models `get(key)` (line 134): an expired key is purged from `store` and
`ttls` and read as null; otherwise `this.store.get(key) || null`, under which
an empty-string value is falsy and also read as null. -/
def lockGet (k : LockKey) (now : Int) : Option String × LockKey :=
  if lockIsExpired k now then (none, ⟨none, none⟩)
  else
    match k.value with
    | none => (none, k)
    | some v => (if v = "" then none else some v, k)

/-- The trailing variadic arguments of `set(key, value, ...args)`. -/
inductive SetArg where
  | ex (seconds : Int)
  | px (ms : Int)
  | nx
deriving DecidableEq, Repr

/-- The argument-scanning loop of `set` (lines 147-160), entered after the
unconditional `this.store.set(key, value)`. For `EX`, a falsy (zero)
seconds argument skips the branch and `_setExpiry` only writes a positive
expiry, so the net effect is guarded by `0 < s`; for `PX`, a truthy
milliseconds argument writes `Date.now() + ms` unconditionally; for `NX`,
the method returns immediately: null when the key is present and not
expired, otherwise it stores the value again and returns OK. -/
def setArgsLoop (value : String) (now : Int) :
    LockKey → List SetArg → Option String × LockKey
  | k, [] => (some "OK", k)
  | k, SetArg.ex s :: rest =>
      setArgsLoop value now
        (if 0 < s then { k with expire := some (now + s * 1000) } else k) rest
  | k, SetArg.px ms :: rest =>
      setArgsLoop value now
        (if ms = 0 then k else { k with expire := some (now + ms) }) rest
  | k, SetArg.nx :: _ =>
      if k.value.isSome && !(lockIsExpired k now) then (none, k)
      else (some "OK", { k with value := some value })

/-- Models `set(key, value, ...args)` (line 143): the value is written
unconditionally before any argument is examined. -/
def setCmd (k : LockKey) (value : String) (args : List SetArg) (now : Int) :
    Option String × LockKey :=
  setArgsLoop value now { k with value := some value } args

/-- Models `setAccountLock(lockKey, lockValue, ttlMs)` (line 1694):
`set(lockKey, lockValue, 'PX', ttlMs, 'NX')`, reporting success iff the
result is the string OK. -/
def setAccountLock (k : LockKey) (lockValue : String) (ttlMs : Int)
    (now : Int) : Bool × LockKey :=
  let r := setCmd k lockValue [SetArg.px ttlMs, SetArg.nx] now
  (decide (r.1 = some "OK"), r.2)

/-- Models `releaseAccountLock(lockKey, lockValue)` (line 1704): read the
current value; when it strictly equals the token, delete the key (from both
`store` and `ttls`) and return true; otherwise return false. -/
def releaseAccountLock (k : LockKey) (lockValue : String) (now : Int) :
    Bool × LockKey :=
  let g := lockGet k now
  match g.1 with
  | some v => if v = lockValue then (true, ⟨none, none⟩) else (false, g.2)
  | none => (false, g.2)

/-! ### Sticky-session TTL renewal (`ttl`, `expire`,
`extendSessionAccountMappingTTL`, lines 204-233 and 1381-1415)

A sticky-session key lives only in the plain string store, so its state is
whether `this.store.has(key)` holds plus its `ttls` entry. -/

structure SessionKey where
  present : Bool
  ttl : Option Int
deriving DecidableEq, Repr

/-- Models `ttl(key)` (line 217): -2 when the key is absent everywhere and
has no TTL entry, -1 when present without TTL, otherwise
`Math.ceil((expiry - now) / 1000)` clamped to -2 when not positive. -/
def ttlQuery (s : SessionKey) (now : Int) : Int :=
  match s.ttl with
  | none => if s.present then -1 else -2
  | some t =>
      let remaining := Int.ediv (t - now + 999) 1000
      if 0 < remaining then remaining else -2

/-- Models `expire(key, seconds)` (line 204) restricted to a key that can
only live in the string store: a no-op when absent, and `_setExpiry` only
writes when `seconds > 0`. -/
def expireCmd (s : SessionKey) (seconds : Int) (now : Int) : SessionKey :=
  if s.present then
    (if 0 < seconds then { s with ttl := some (now + seconds * 1000) } else s)
  else s

/-- Models the session block of `config`: `stickyTtlHours` and
`renewalThresholdMinutes` after the `|| 1` / `|| 0` defaulting have natural
number values. -/
structure SessionConfig where
  stickyTtlHours : Nat
  renewalThresholdMinutes : Nat
deriving DecidableEq, Repr

/-- The `ttlHours * 60 * 60` full TTL of `extendSessionAccountMappingTTL`,
after the `stickyTtlHours || 1` defaulting. -/
def fullTTLOf (cfg : SessionConfig) : Int :=
  (if cfg.stickyTtlHours = 0 then 1 else (cfg.stickyTtlHours : Int)) * 60 * 60

/-- The `thresholdMinutes * 60` renewal threshold in seconds. -/
def renewalThresholdOf (cfg : SessionConfig) : Int :=
  (cfg.renewalThresholdMinutes : Int) * 60

/-- Models `extendSessionAccountMappingTTL(sessionHash)` (line 1381). The
`try` block only performs `ttl` and `expire` calls, which cannot raise in
the memory client, so the catch path is unreachable and omitted. -/
def extendSessionAccountMappingTTL (cfg : SessionConfig) (s : SessionKey)
    (now : Int) : Bool × SessionKey :=
  if cfg.renewalThresholdMinutes = 0 then (true, s)
  else
    let remaining := ttlQuery s now
    if remaining = -2 then (false, s)
    else if remaining = -1 then (true, s)
    else if remaining < renewalThresholdOf cfg then
      (true, expireCmd s (fullTTLOf cfg) now)
    else (true, s)

/-! ### Usage/cost meter write batches (`incrementTokenUsage`,
`incrementDailyCost`, lines 675-793 and 961-981)

Each method issues a batch of store writes; the batch is modelled as the
ordered list of commands it submits. The timezone-derived period strings
(`today`, `currentMonth`, `currentHour`, computed by
`getDateStringInTimezone` / `getHourInTimezone`) and the normalized model
name (computed by `_normalizeModelName`) are taken as parameters, since the
claims below concern only which bucket receives which TTL. -/

inductive MCmd where
  | hincrby (key field : String) (amount : Int)
  | incrbyfloat (key : String) (amount : Rat)
  | expire (key : String) (seconds : Int)
deriving DecidableEq, Repr

/-- The pipeline built by `incrementTokenUsage` (lines 720-791), in source
order. `metricsWindow` is `config.system.metricsWindow`. -/
def incrementTokenUsagePipeline (keyId : String)
    (tokens inputTokens outputTokens cacheCreateTokens cacheReadTokens : Int)
    (normalizedModel : String) (ephemeral5mTokens ephemeral1hTokens : Int)
    (isLongContextRequest : Bool)
    (today currentMonth currentHour : String) (minuteTimestamp : Int)
    (metricsWindow : Int) : List MCmd :=
  let key := "usage:" ++ keyId
  let daily := "usage:daily:" ++ keyId ++ ":" ++ today
  let monthly := "usage:monthly:" ++ keyId ++ ":" ++ currentMonth
  let hourly := "usage:hourly:" ++ keyId ++ ":" ++ currentHour
  let modelDaily := "usage:model:daily:" ++ normalizedModel ++ ":" ++ today
  let keyModelDaily :=
    "usage:" ++ keyId ++ ":model:daily:" ++ normalizedModel ++ ":" ++ today
  let systemMinuteKey := "system:metrics:minute:" ++ toString minuteTimestamp
  let finalInputTokens := inputTokens
  let finalOutputTokens :=
    if outputTokens = 0 then (if 0 < finalInputTokens then 0 else tokens)
    else outputTokens
  let finalCacheCreateTokens := cacheCreateTokens
  let finalCacheReadTokens := cacheReadTokens
  let totalTokens := finalInputTokens + finalOutputTokens
    + finalCacheCreateTokens + finalCacheReadTokens
  let coreTokens := finalInputTokens + finalOutputTokens
  ([MCmd.hincrby key "totalTokens" coreTokens,
    MCmd.hincrby key "totalInputTokens" finalInputTokens,
    MCmd.hincrby key "totalOutputTokens" finalOutputTokens,
    MCmd.hincrby key "totalCacheCreateTokens" finalCacheCreateTokens,
    MCmd.hincrby key "totalCacheReadTokens" finalCacheReadTokens,
    MCmd.hincrby key "totalAllTokens" totalTokens,
    MCmd.hincrby key "totalEphemeral5mTokens" ephemeral5mTokens,
    MCmd.hincrby key "totalEphemeral1hTokens" ephemeral1hTokens]
  ++ (if isLongContextRequest then
      [MCmd.hincrby key "totalLongContextInputTokens" finalInputTokens,
       MCmd.hincrby key "totalLongContextOutputTokens" finalOutputTokens,
       MCmd.hincrby key "totalLongContextRequests" 1]
      else [])
  ++ [MCmd.hincrby key "totalRequests" 1,
      MCmd.hincrby daily "tokens" coreTokens,
      MCmd.hincrby daily "inputTokens" finalInputTokens,
      MCmd.hincrby daily "outputTokens" finalOutputTokens,
      MCmd.hincrby daily "cacheCreateTokens" finalCacheCreateTokens,
      MCmd.hincrby daily "cacheReadTokens" finalCacheReadTokens,
      MCmd.hincrby daily "allTokens" totalTokens,
      MCmd.hincrby daily "requests" 1,
      MCmd.hincrby daily "ephemeral5mTokens" ephemeral5mTokens,
      MCmd.hincrby daily "ephemeral1hTokens" ephemeral1hTokens,
      MCmd.hincrby monthly "tokens" coreTokens,
      MCmd.hincrby monthly "inputTokens" finalInputTokens,
      MCmd.hincrby monthly "outputTokens" finalOutputTokens,
      MCmd.hincrby monthly "cacheCreateTokens" finalCacheCreateTokens,
      MCmd.hincrby monthly "cacheReadTokens" finalCacheReadTokens,
      MCmd.hincrby monthly "allTokens" totalTokens,
      MCmd.hincrby monthly "requests" 1,
      MCmd.hincrby hourly "tokens" coreTokens,
      MCmd.hincrby hourly "inputTokens" finalInputTokens,
      MCmd.hincrby hourly "outputTokens" finalOutputTokens,
      MCmd.hincrby hourly "allTokens" totalTokens,
      MCmd.hincrby hourly "requests" 1,
      MCmd.hincrby modelDaily "inputTokens" finalInputTokens,
      MCmd.hincrby modelDaily "outputTokens" finalOutputTokens,
      MCmd.hincrby modelDaily "allTokens" totalTokens,
      MCmd.hincrby modelDaily "requests" 1,
      MCmd.hincrby keyModelDaily "inputTokens" finalInputTokens,
      MCmd.hincrby keyModelDaily "outputTokens" finalOutputTokens,
      MCmd.hincrby keyModelDaily "allTokens" totalTokens,
      MCmd.hincrby keyModelDaily "requests" 1,
      MCmd.hincrby systemMinuteKey "requests" 1,
      MCmd.hincrby systemMinuteKey "totalTokens" totalTokens,
      MCmd.hincrby systemMinuteKey "inputTokens" finalInputTokens,
      MCmd.hincrby systemMinuteKey "outputTokens" finalOutputTokens,
      MCmd.expire daily (86400 * 32),
      MCmd.expire monthly (86400 * 365),
      MCmd.expire hourly (86400 * 7),
      MCmd.expire systemMinuteKey (metricsWindow * 60 * 2)])

/-- The batch of operations issued by `incrementDailyCost(keyId, amount)`
(lines 972-980), in source order. -/
def incrementDailyCostOps (keyId : String) (amount : Rat)
    (today currentMonth currentHour : String) : List MCmd :=
  let dailyKey := "usage:cost:daily:" ++ keyId ++ ":" ++ today
  let monthlyKey := "usage:cost:monthly:" ++ keyId ++ ":" ++ currentMonth
  let hourlyKey := "usage:cost:hourly:" ++ keyId ++ ":" ++ currentHour
  let totalKey := "usage:cost:total:" ++ keyId
  [MCmd.incrbyfloat dailyKey amount,
   MCmd.incrbyfloat monthlyKey amount,
   MCmd.incrbyfloat hourlyKey amount,
   MCmd.incrbyfloat totalKey amount,
   MCmd.expire dailyKey (86400 * 30),
   MCmd.expire monthlyKey (86400 * 90),
   MCmd.expire hourlyKey (86400 * 7)]

/-! ### Key deletion across structures (`del`, lines 171-181) -/

structure MemStore where
  store : List (String × String)
  ttls : List (String × Int)
  hashes : List (String × List (String × String))
  lists : List (String × List String)
  zsets : List (String × List (String × Int))
deriving DecidableEq, Repr

/-- Whether a map holds the key (models `Map.has`). -/
def hasKey {α : Type} (l : List (String × α)) (k : String) : Bool :=
  (alookup l k).isSome

/-- One iteration of the `del` loop: the deletion counter is bumped only
when `this.store.delete(key)` returns true; the hash, list, zset and TTL
entries are removed unconditionally. -/
def delOne (st : MemStore) (k : String) : Nat × MemStore :=
  let d := if hasKey st.store k then 1 else 0
  (d, { store := aremove st.store k, ttls := aremove st.ttls k,
        hashes := aremove st.hashes k, lists := aremove st.lists k,
        zsets := aremove st.zsets k })

/-- Models `del(...keys)` (line 171). -/
def del (st : MemStore) (ks : List String) : Nat × MemStore :=
  match ks with
  | [] => (0, st)
  | k :: rest =>
      let r1 := delOne st k
      let r2 := del r1.2 rest
      (r1.1 + r2.1, r2.2)

/-- Removal of a list of keys from one map, in order. -/
def aremoveAll {α : Type} (l : List (String × α)) (ks : List String) :
    List (String × α) :=
  ks.foldl (fun acc k => aremove acc k) l

theorem alookup_filter_none {α : Type} (l : List (String × α)) (k : String)
    (q : String × α → Bool) (h : alookup l k = none) :
    alookup (l.filter q) k = none := by
  rw [alookup_eq_none_iff] at h ⊢
  exact fun p hp => h p (List.mem_filter.mp hp).1

theorem alookup_sweepFilter_of_nodupKeys (l : List (String × Int))
    (k : String) (now : Int) (hnd : (l.map Prod.fst).Nodup) :
    alookup (l.filter (fun p => decide (now < p.2))) k
      = (alookup l k).bind (fun v => if now < v then some v else none) := by
  have h := alookup_filter_of_nodupKeys l k (fun s => decide (now < s)) hnd
  simpa using h

theorem sweep_zset_getD (c : CKey) (now : Int) :
    (zremrangebyscore c now).zset.getD [] = liveEntries c now := by
  cases hz : c.zset <;> simp [zremrangebyscore, liveEntries, hz]

theorem sweep_ttl (c : CKey) (now : Int) :
    (zremrangebyscore c now).ttl = c.ttl := by
  cases hz : c.zset <;> simp [zremrangebyscore, hz]

theorem getConcurrencyBody_eq_liveCount (c : CKey) (now : Int) :
    (getConcurrencyBody c now).1 = liveCount c now := by
  cases c with
  | mk zs tt =>
    cases tt with
    | none =>
      cases zs <;>
        simp [getConcurrencyBody, zremrangebyscore, zcard, isExpired,
          liveCount, liveEntries]
    | some t =>
      by_cases hE : t ≤ now <;>
        cases zs <;>
          simp [getConcurrencyBody, zremrangebyscore, zcard, isExpired,
            liveCount, liveEntries, hE]

theorem decrConcurrencyBody_fst (c : CKey) (rid : String) (now : Int) :
    (decrConcurrencyBody c rid now).1
      = liveCount (if rid = "" then c else zrem c rid) now := by
  have h := getConcurrencyBody_eq_liveCount
    (if rid = "" then c else zrem c rid) now
  simp only [getConcurrencyBody] at h
  simp only [decrConcurrencyBody]
  by_cases h0 :
      (zcard (zremrangebyscore (if rid = "" then c else zrem c rid) now)
        now).1 = 0
  · rw [if_pos h0]
    have hlc : liveCount (if rid = "" then c else zrem c rid) now = 0 := by
      omega
    simp [hlc]
  · rw [if_neg h0]
    exact h

/-! ### Claim C2 -/

/-- Claim C2: sweep-before-read. With a healthy backend and a well-formed
zset (distinct member names, as JavaScript Maps guarantee), `getConcurrency`
returns exactly the number of members with score > now, `decrConcurrency`
returns exactly the number of surviving members with score > now after the
requested member is removed, and `refreshConcurrencyLease` reports 1 only
for a member whose stored score is > now — so an entry with
`expiresAt ≤ now` is never included in any returned count. -/
theorem C2_sweep_before_read (cfg : CConfig) (c : CKey) (rid : String)
    (ls : Option Int) (now : Int)
    (hnd : ((c.zset.getD []).map Prod.fst).Nodup) :
    (getConcurrency (Except.ok ()) c now).1 = liveCount c now ∧
    (decrConcurrency (Except.ok ()) c rid now).map Prod.fst
      = Except.ok (liveCount (if rid = "" then c else zrem c rid) now) ∧
    ((refreshConcurrencyLease (Except.ok ()) cfg c rid ls now).1 = 1 ↔
      (rid ≠ "" ∧ ∃ s, alookup (c.zset.getD []) rid = some s ∧ now < s)) := by
  refine ⟨getConcurrencyBody_eq_liveCount c now, ?_, ?_⟩
  · simp [decrConcurrency, Except.map, decrConcurrencyBody_fst c rid now]
  · by_cases hrid : rid = ""
    · simp [refreshConcurrencyLease, hrid]
    · cases hz : c.zset with
      | none =>
        simp [refreshConcurrencyLease, refreshConcurrencyLeaseBody,
          zremrangebyscore, zscore, alookup, hrid, hz]
      | some l =>
        rw [hz] at hnd
        simp only [Option.getD_some] at hnd
        have hsw := alookup_sweepFilter_of_nodupKeys l rid now hnd
        cases ho : alookup l rid with
        | none =>
          simp [refreshConcurrencyLease, refreshConcurrencyLeaseBody,
            zremrangebyscore, zscore, hrid, hz, hsw, ho]
        | some s =>
          by_cases hs : now < s
          · simp [refreshConcurrencyLease, refreshConcurrencyLeaseBody,
              zremrangebyscore, zscore, hrid, hz, hsw, ho, hs]
          · simp [refreshConcurrencyLease, refreshConcurrencyLeaseBody,
              zremrangebyscore, zscore, hrid, hz, hsw, ho, hs]

/-- Claim C2 witness: a key holding one live and one expired member. -/
theorem C2_sweep_before_read_witness :
    (((CKey.mk (some [("r1", 2000), ("r2", 900)]) none).zset.getD []).map
        Prod.fst).Nodup ∧
    ((getConcurrency (Except.ok ())
          ⟨some [("r1", 2000), ("r2", 900)], none⟩ 1000).1
        = liveCount ⟨some [("r1", 2000), ("r2", 900)], none⟩ 1000 ∧
      (decrConcurrency (Except.ok ())
          ⟨some [("r1", 2000), ("r2", 900)], none⟩ "r1" 1000).map Prod.fst
        = Except.ok (liveCount
            (if ("r1" : String) = ""
              then ⟨some [("r1", 2000), ("r2", 900)], none⟩
              else zrem ⟨some [("r1", 2000), ("r2", 900)], none⟩ "r1") 1000) ∧
      ((refreshConcurrencyLease (Except.ok ()) ⟨300, 30, 30⟩
            ⟨some [("r1", 2000), ("r2", 900)], none⟩ "r1" none 1000).1 = 1 ↔
        (("r1" : String) ≠ "" ∧ ∃ s,
          alookup ((CKey.mk (some [("r1", 2000), ("r2", 900)]) none).zset.getD
            []) "r1" = some s ∧ 1000 < s))) :=
  ⟨by decide,
   C2_sweep_before_read ⟨300, 30, 30⟩ ⟨some [("r1", 2000), ("r2", 900)], none⟩
     "r1" none 1000 (by decide)⟩

/-! ### Claim C5 -/

theorem incrConcurrencyBody_eq (cfg : CConfig) (c : CKey) (rid : String)
    (ls : Option Int) (now : Int) :
    incrConcurrencyBody cfg c rid ls now
      = ((aset (liveEntries c now) rid
            (now + resolveLease cfg ls * 1000)).length,
         ⟨some (aset (liveEntries c now) rid
            (now + resolveLease cfg ls * 1000)),
          some (now + max ((resolveLease cfg ls + cfg.cleanupGraceSeconds)
            * 1000) 60000)⟩) := by
  have httl : (0 : Int)
      < max ((resolveLease cfg ls + cfg.cleanupGraceSeconds) * 1000) 60000 :=
    lt_of_lt_of_le (by norm_num) (le_max_right _ _)
  have hne : ¬ (now + max ((resolveLease cfg ls + cfg.cleanupGraceSeconds)
      * 1000) 60000 ≤ now) := by omega
  simp only [incrConcurrencyBody, zadd, sweep_zset_getD, sweep_ttl]
  rw [if_pos httl]
  simp [zcard, isExpired, hne]

theorem liveCount_all_live (L : List (String × Int)) (t now : Int)
    (ht : now < t)
    (hall : ∀ p ∈ L, decide (now < p.2) = true) :
    liveCount ⟨some L, some t⟩ now = L.length := by
  have hle : ¬ (t ≤ now) := by omega
  have hE : isExpired (⟨some L, some t⟩ : CKey) now = false := by
    simp [isExpired, hle]
  simp [liveCount, hE, liveEntries, List.filter_eq_self.mpr hall]

/-- Claim C5: with a non-empty requestId and a positive resolved lease,
`incrConcurrency` succeeds, its state adds `(requestId, now + lease·1000)`
to the swept member list, the returned count is the new cardinality (hence
at least 1), and an immediate `getConcurrency` at the same instant returns
the same count. -/
theorem C5_acquire_then_getCount (cfg : CConfig) (c : CKey) (rid : String)
    (ls : Option Int) (now : Int) (hrid : rid ≠ "")
    (hl : 0 < resolveLease cfg ls) :
    ∃ cnt c2,
      incrConcurrency (Except.ok ()) cfg c rid ls now = Except.ok (cnt, c2) ∧
      1 ≤ cnt ∧
      c2.zset = some (aset (liveEntries c now) rid
        (now + resolveLease cfg ls * 1000)) ∧
      (getConcurrency (Except.ok ()) c2 now).1 = cnt := by
  refine ⟨(aset (liveEntries c now) rid
      (now + resolveLease cfg ls * 1000)).length,
    ⟨some (aset (liveEntries c now) rid (now + resolveLease cfg ls * 1000)),
     some (now + max ((resolveLease cfg ls + cfg.cleanupGraceSeconds) * 1000)
       60000)⟩, ?_, one_le_length_aset _ _ _, rfl, ?_⟩
  · simp [incrConcurrency, hrid, incrConcurrencyBody_eq]
  · have hgb :
        (getConcurrency (Except.ok ())
          (⟨some (aset (liveEntries c now) rid
              (now + resolveLease cfg ls * 1000)),
            some (now + max ((resolveLease cfg ls + cfg.cleanupGraceSeconds)
              * 1000) 60000)⟩ : CKey) now).1
        = liveCount (⟨some (aset (liveEntries c now) rid
              (now + resolveLease cfg ls * 1000)),
            some (now + max ((resolveLease cfg ls + cfg.cleanupGraceSeconds)
              * 1000) 60000)⟩ : CKey) now :=
      getConcurrencyBody_eq_liveCount _ now
    rw [hgb]
    have httl : (0 : Int)
        < max ((resolveLease cfg ls + cfg.cleanupGraceSeconds) * 1000) 60000
      := lt_of_lt_of_le (by norm_num) (le_max_right _ _)
    have hall : ∀ p ∈ aset (liveEntries c now) rid
        (now + resolveLease cfg ls * 1000), decide (now < p.2) = true := by
      intro p hp
      rcases mem_aset _ _ _ p hp with h | h
      · subst h
        simp only [decide_eq_true_eq]
        have : (0 : Int) < resolveLease cfg ls * 1000 :=
          mul_pos hl (by norm_num)
        omega
      · exact (List.mem_filter.mp h).2
    exact liveCount_all_live _ _ now (by omega) hall

/-- Claim C5 witness: a first acquire on an absent key. -/
theorem C5_acquire_then_getCount_witness :
    ("r1" : String) ≠ "" ∧ 0 < resolveLease ⟨300, 30, 30⟩ none ∧
    (∃ cnt c2,
      incrConcurrency (Except.ok ()) ⟨300, 30, 30⟩ ⟨none, none⟩ "r1" none 0
        = Except.ok (cnt, c2) ∧
      1 ≤ cnt ∧
      c2.zset = some (aset (liveEntries ⟨none, none⟩ 0) "r1"
        (0 + resolveLease ⟨300, 30, 30⟩ none * 1000)) ∧
      (getConcurrency (Except.ok ()) c2 0).1 = cnt) :=
  ⟨by decide, by decide,
   C5_acquire_then_getCount ⟨300, 30, 30⟩ ⟨none, none⟩ "r1" none 0
     (by decide) (by decide)⟩

/-! ### Claim C6 -/

/-- Claim C6: `refreshConcurrencyLease` with a non-empty requestId first
sweeps, then: if the requestId no longer has a score it returns 0 and
leaves the swept set unchanged (no re-admission); if it still has a score
it returns 1, updates the score to `now + lease·1000` and refreshes the key
TTL. -/
theorem C6_renew (cfg : CConfig) (c : CKey) (rid : String) (ls : Option Int)
    (now : Int) (hrid : rid ≠ "") :
    (zscore (zremrangebyscore c now) rid = none →
       refreshConcurrencyLease (Except.ok ()) cfg c rid ls now
         = (0, zremrangebyscore c now)) ∧
    (∀ s, zscore (zremrangebyscore c now) rid = some s →
       refreshConcurrencyLease (Except.ok ()) cfg c rid ls now
         = (1, ⟨some (aset ((zremrangebyscore c now).zset.getD []) rid
                 (now + resolveLease cfg ls * 1000)),
               some (now + max ((resolveLease cfg ls
                 + cfg.cleanupGraceSeconds) * 1000) 60000)⟩)) := by
  have httl : (0 : Int)
      < max ((resolveLease cfg ls + cfg.cleanupGraceSeconds) * 1000) 60000 :=
    lt_of_lt_of_le (by norm_num) (le_max_right _ _)
  constructor
  · intro h0
    simp [refreshConcurrencyLease, refreshConcurrencyLeaseBody, hrid, h0]
  · intro s hs
    simp [refreshConcurrencyLease, refreshConcurrencyLeaseBody, hrid, hs,
      zadd, httl]

/-- Claim C6 witness: renewing an already-expired lease returns 0 and the
set membership is unchanged apart from the sweep. -/
theorem C6_renew_witness :
    ("r1" : String) ≠ "" ∧
    refreshConcurrencyLease (Except.ok ()) ⟨300, 30, 30⟩
        ⟨some [("r1", 500)], none⟩ "r1" none 1000
      = (0, zremrangebyscore ⟨some [("r1", 500)], none⟩ 1000) :=
  ⟨by decide,
   (C6_renew ⟨300, 30, 30⟩ ⟨some [("r1", 500)], none⟩ "r1" none 1000
     (by decide)).1 (by decide)⟩

/-! ### Claim C7 -/

theorem decrBody_none (rid : String) (now : Int) :
    decrConcurrencyBody ⟨none, none⟩ rid now = (0, ⟨none, none⟩) := by
  by_cases h : rid = "" <;>
    simp [decrConcurrencyBody, zrem, zremrangebyscore, zcard, isExpired, h]

theorem sweep_zset_some {c : CKey} {now : Int} {L : List (String × Int)}
    (h : (zremrangebyscore c now).zset = some L) :
    L = (c.zset.getD []).filter (fun p => decide (now < p.2)) := by
  cases hz : c.zset with
  | none => simp [zremrangebyscore, hz] at h
  | some l0 =>
    simp [zremrangebyscore, hz] at h
    simp [hz, h.symm]

theorem alookup_zrem_getD_none (c : CKey) (rid : String) :
    alookup ((zrem c rid).zset.getD []) rid = none := by
  cases hz : c.zset <;> simp [zrem, hz, alookup, alookup_aremove_all]

theorem decrBody_stable (L : List (String × Int)) (tt : Option Int)
    (rid : String) (now : Int)
    (hE : isExpired ⟨some L, tt⟩ now = false)
    (hall : ∀ p ∈ L, decide (now < p.2) = true)
    (hno : rid ≠ "" → alookup L rid = none)
    (hlen : L.length ≠ 0) :
    decrConcurrencyBody ⟨some L, tt⟩ rid now = (L.length, ⟨some L, tt⟩) := by
  have hc1 : (if rid = "" then (⟨some L, tt⟩ : CKey)
      else zrem ⟨some L, tt⟩ rid) = ⟨some L, tt⟩ := by
    by_cases h : rid = ""
    · simp [h]
    · simp [h, zrem, aremove_eq_self_of_alookup_none L rid (hno h)]
  have hfe : L.filter (fun p => decide (now < p.2)) = L :=
    List.filter_eq_self.mpr hall
  simp only [decrConcurrencyBody, hc1, zremrangebyscore, hfe]
  simp [zcard, hE, hlen]

theorem decrBody_idem (c : CKey) (rid : String) (now : Int) :
    decrConcurrencyBody (decrConcurrencyBody c rid now).2 rid now
      = decrConcurrencyBody c rid now := by
  by_cases h0 : (zcard (zremrangebyscore
      (if rid = "" then c else zrem c rid) now) now).1 = 0
  · have hbody : decrConcurrencyBody c rid now = (0, ⟨none, none⟩) := by
      simp only [decrConcurrencyBody]
      rw [if_pos h0]
    rw [hbody]
    exact decrBody_none rid now
  · have hbody : decrConcurrencyBody c rid now
        = zcard (zremrangebyscore (if rid = "" then c else zrem c rid) now)
            now := by
      simp only [decrConcurrencyBody]
      rw [if_neg h0]
    by_cases hEx : isExpired
        (zremrangebyscore (if rid = "" then c else zrem c rid) now) now
    · exfalso
      exact h0 (by simp [zcard, hEx])
    · cases hz2 : (zremrangebyscore
          (if rid = "" then c else zrem c rid) now).zset with
      | none =>
        exfalso
        exact h0 (by simp [zcard, hEx, hz2])
      | some L =>
        have hr : zcard (zremrangebyscore
            (if rid = "" then c else zrem c rid) now) now
            = (L.length, zremrangebyscore
                (if rid = "" then c else zrem c rid) now) := by
          simp [zcard, hEx, hz2]
        have hlen : L.length ≠ 0 := by
          intro hh
          exact h0 (by rw [hr, hh])
        have hswL := sweep_zset_some hz2
        have hall : ∀ p ∈ L, decide (now < p.2) = true := by
          intro p hp
          rw [hswL] at hp
          exact (List.mem_filter.mp hp).2
        have hno : rid ≠ "" → alookup L rid = none := by
          intro h
          rw [hswL]
          apply alookup_filter_none
          rw [if_neg h]
          exact alookup_zrem_getD_none c rid
        have hE2 : isExpired (zremrangebyscore
            (if rid = "" then c else zrem c rid) now) now = false := by
          simpa using hEx
        have hc2eta : zremrangebyscore
            (if rid = "" then c else zrem c rid) now
            = (⟨some L, (zremrangebyscore
                (if rid = "" then c else zrem c rid) now).ttl⟩ : CKey) := by
          rw [← hz2]
        rw [hbody, hr]
        rw [hc2eta]
        exact decrBody_stable L _ rid now (hc2eta ▸ hE2) hall hno hlen

/-- Claim C7: `decrConcurrency` with a healthy backend never errors, is
idempotent (replaying the release yields the same count and state), returns
the post-sweep live count, and whenever that count is 0 it deletes the
underlying key entirely (both the zset and its TTL entry), leaving nothing
enumerable. -/
theorem C7_release (c : CKey) (rid : String) (now : Int) :
    decrConcurrency (Except.ok ()) c rid now
      = Except.ok (decrConcurrencyBody c rid now) ∧
    decrConcurrencyBody (decrConcurrencyBody c rid now).2 rid now
      = decrConcurrencyBody c rid now ∧
    (decrConcurrencyBody c rid now).1
      = liveCount (if rid = "" then c else zrem c rid) now ∧
    ((decrConcurrencyBody c rid now).1 = 0 →
      (decrConcurrencyBody c rid now).2 = ⟨none, none⟩) := by
  refine ⟨rfl, decrBody_idem c rid now, decrConcurrencyBody_fst c rid now,
    ?_⟩
  intro h0
  by_cases hr : (zcard (zremrangebyscore
      (if rid = "" then c else zrem c rid) now) now).1 = 0
  · simp only [decrConcurrencyBody]
    rw [if_pos hr]
  · simp only [decrConcurrencyBody] at h0
    rw [if_neg hr] at h0
    exact absurd h0 hr

/-- Claim C7 witness: releasing the only lease deletes the key and returns
0. -/
theorem C7_release_witness :
    (decrConcurrencyBody ⟨some [("r1", 5000)], none⟩ "r1" 0).1 = 0 ∧
    (decrConcurrencyBody ⟨some [("r1", 5000)], none⟩ "r1" 0).2
      = ⟨none, none⟩ :=
  ⟨by decide,
   (C7_release ⟨some [("r1", 5000)], none⟩ "r1" 0).2.2.2 (by decide)⟩

/-! ### Claim C1 -/

/-- Claim C1: `setAccountLock` is required to succeed exactly when the key
was absent, and the set-if-not-exists path must not write when the key is
present. The code violates both: `set` stores the value unconditionally
before scanning its arguments, and processes `PX` before `NX`, so the `NX`
check always sees a fresh, unexpired key. On an absent key the acquire
returns false (claim requires true) and on a present key holding "B" it
still overwrites the value with "A" while returning false. -/
theorem C1_setAccountLock_never_acquires :
    setAccountLock ⟨none, none⟩ "A" 5000 0
      = (false, ⟨some "A", some 5000⟩) ∧
    setAccountLock ⟨some "B", some 10000⟩ "A" 5000 0
      = (false, ⟨some "A", some 5000⟩) := by decide

/-! ### Claim C8 -/

/-- Claim C8: `extendSessionAccountMappingTTL` follows the lazy-renewal
rules exactly, for every session state satisfying the store invariant that a
TTL entry only exists for a present key: threshold zero is a no-op
returning true; an absent/expired key returns false; a key without TTL
returns true without writing; a remaining TTL strictly below the threshold
rewrites the full TTL and returns true; otherwise it returns true without
writing. -/
theorem C8_extendTTL (cfg : SessionConfig) (s : SessionKey) (now : Int)
    (hinv : s.present = false → s.ttl = none) :
    (cfg.renewalThresholdMinutes = 0 →
        extendSessionAccountMappingTTL cfg s now = (true, s)) ∧
    (cfg.renewalThresholdMinutes ≠ 0 →
      ((ttlQuery s now = -2 →
          extendSessionAccountMappingTTL cfg s now = (false, s)) ∧
       (ttlQuery s now = -1 →
          extendSessionAccountMappingTTL cfg s now = (true, s)) ∧
       (0 ≤ ttlQuery s now → ttlQuery s now < renewalThresholdOf cfg →
          extendSessionAccountMappingTTL cfg s now
            = (true, { s with ttl := some (now + fullTTLOf cfg * 1000) })) ∧
       (renewalThresholdOf cfg ≤ ttlQuery s now →
          extendSessionAccountMappingTTL cfg s now = (true, s)))) := by
  constructor
  · intro h
    simp [extendSessionAccountMappingTTL, h]
  · intro hthr
    have hm : (1 : Int) ≤ (cfg.renewalThresholdMinutes : Int) := by
      exact_mod_cast Nat.one_le_iff_ne_zero.mpr hthr
    refine ⟨?_, ?_, ?_, ?_⟩
    · intro h2
      simp [extendSessionAccountMappingTTL, hthr, h2]
    · intro h2
      simp [extendSessionAccountMappingTTL, hthr, h2]
    · intro hge hlt
      have hne2 : ¬ (ttlQuery s now = -2) := by omega
      have hne1 : ¬ (ttlQuery s now = -1) := by omega
      have hpres : s.present = true := by
        by_contra hp
        have hp' : s.present = false := by simpa using hp
        have hnone := hinv hp'
        simp [ttlQuery, hnone, hp'] at hge
      have hfull : (0 : Int) < fullTTLOf cfg := by
        unfold fullTTLOf
        by_cases hh : cfg.stickyTtlHours = 0
        · simp [hh]
        · have h1 : (1 : Int) ≤ (cfg.stickyTtlHours : Int) := by
            exact_mod_cast Nat.one_le_iff_ne_zero.mpr hh
          rw [if_neg hh]
          nlinarith
      simp [extendSessionAccountMappingTTL, hthr, hne2, hne1, hlt,
        expireCmd, hpres, hfull]
    · intro hge
      have hth60 : (60 : Int) ≤ renewalThresholdOf cfg := by
        unfold renewalThresholdOf
        nlinarith
      have hne2 : ¬ (ttlQuery s now = -2) := by omega
      have hne1 : ¬ (ttlQuery s now = -1) := by omega
      have hlt : ¬ (ttlQuery s now < renewalThresholdOf cfg) := by omega
      simp [extendSessionAccountMappingTTL, hthr, hne2, hne1, hlt]

/-- Claim C8 witness: remaining TTL of 5 seconds against a 10-minute
threshold gets rewritten to the full one-hour TTL. -/
theorem C8_extendTTL_witness :
    extendSessionAccountMappingTTL ⟨1, 10⟩ ⟨true, some 5000⟩ 0
      = (true, ⟨true, some (0 + fullTTLOf ⟨1, 10⟩ * 1000)⟩) :=
  ((C8_extendTTL ⟨1, 10⟩ ⟨true, some 5000⟩ 0 (by decide)).2
    (by decide)).2.2.1 (by decide) (by decide)

/-! ### Claim C10 -/

theorem del_snd (st : MemStore) (ks : List String) :
    (del st ks).2 = ⟨aremoveAll st.store ks, aremoveAll st.ttls ks,
      aremoveAll st.hashes ks, aremoveAll st.lists ks,
      aremoveAll st.zsets ks⟩ := by
  induction ks generalizing st with
  | nil => simp [del, aremoveAll]
  | cons k rest ih => simp [del, delOne, aremoveAll, ih]

theorem alookup_aremoveAll_none {α : Type} (l : List (String × α))
    (ks : List String) (k : String) (h : alookup l k = none) :
    alookup (aremoveAll l ks) k = none := by
  induction ks generalizing l with
  | nil => simpa [aremoveAll] using h
  | cons k0 rest ih =>
    simp only [aremoveAll, List.foldl_cons]
    apply ih
    rw [alookup_aremove]
    by_cases hk : k = k0 <;> simp [hk, h]

theorem alookup_aremoveAll_of_mem {α : Type} (l : List (String × α))
    (ks : List String) (k : String) :
    k ∈ ks → alookup (aremoveAll l ks) k = none := by
  induction ks generalizing l with
  | nil =>
    intro h
    cases h
  | cons k0 rest ih =>
    intro h
    simp only [aremoveAll, List.foldl_cons]
    rcases List.mem_cons.mp h with h1 | h1
    · subst h1
      exact alookup_aremoveAll_none _ rest k (alookup_aremove_all l k)
    · exact ih (aremove l k0) h1

theorem del_fst (st : MemStore) (ks : List String) :
    ks.Nodup →
      (del st ks).1 = (ks.filter (fun k => hasKey st.store k)).length := by
  induction ks generalizing st with
  | nil =>
    intro _
    simp [del]
  | cons k rest ih =>
    intro hnd
    obtain ⟨hk, hnd'⟩ := List.nodup_cons.mp hnd
    have hcong : rest.filter (fun x => hasKey (aremove st.store k) x)
        = rest.filter (fun x => hasKey st.store x) := by
      apply List.filter_congr
      intro x hx
      have hne : x ≠ k := fun hh => hk (hh ▸ hx)
      simp [hasKey, alookup_aremove, hne]
    simp only [del, delOne]
    rw [ih _ hnd']
    simp only [MemStore.store]
    rw [hcong]
    by_cases hp : hasKey st.store k <;>
      simp [List.filter_cons, hp, Nat.add_comm]

/-- Claim C10: the count returned by `del` counts only keys that were
present in the plain string store, while every listed key is nevertheless
removed from the hash, list and zset maps and has its TTL entry cleared —
so deleting a hash-only key returns 0 even though the key ceases to
exist. -/
theorem C10_del (st : MemStore) (ks : List String) (hnd : ks.Nodup) :
    (del st ks).1 = (ks.filter (fun k => hasKey st.store k)).length ∧
    (∀ k ∈ ks,
      hasKey (del st ks).2.store k = false ∧
      hasKey (del st ks).2.hashes k = false ∧
      hasKey (del st ks).2.lists k = false ∧
      hasKey (del st ks).2.zsets k = false ∧
      hasKey (del st ks).2.ttls k = false) := by
  refine ⟨del_fst st ks hnd, ?_⟩
  intro k hk
  rw [del_snd]
  refine ⟨?_, ?_, ?_, ?_, ?_⟩ <;>
    simp [hasKey, alookup_aremoveAll_of_mem _ ks k hk]

/-- A store whose only key exists as a hash (with a TTL), used to witness
claim C10. -/
def hashOnlyStore : MemStore :=
  ⟨[], [("h1", 99)], [("h1", [("f", "v")])], [], []⟩

/-- Claim C10 witness: deleting the hash-only key returns 0 and removes the
key everywhere. -/
theorem C10_del_witness :
    (["h1"] : List String).Nodup ∧
    ((del hashOnlyStore ["h1"]).1
        = ((["h1"] : List String).filter
            (fun k => hasKey hashOnlyStore.store k)).length ∧
      (∀ k ∈ (["h1"] : List String),
        hasKey (del hashOnlyStore ["h1"]).2.store k = false ∧
        hasKey (del hashOnlyStore ["h1"]).2.hashes k = false ∧
        hasKey (del hashOnlyStore ["h1"]).2.lists k = false ∧
        hasKey (del hashOnlyStore ["h1"]).2.zsets k = false ∧
        hasKey (del hashOnlyStore ["h1"]).2.ttls k = false)) :=
  ⟨by decide, C10_del hashOnlyStore ["h1"] (by decide)⟩

/-! ### Claim C9 -/

/-- Claim C9 counterexample: the claimed equivalence "release returns true
iff the currently stored value equals the token" fails at the concrete state
holding the empty string with an empty token: the stored value equals the
token, yet `get` coerces the falsy empty string to null and release returns
false. -/
theorem C9_counterexample :
    ¬ (((releaseAccountLock ⟨some "", none⟩ "" 0).1 = true) ↔
        (LockKey.value ⟨some "", none⟩ = some "")) := by decide

/-- Claim C9 (amended): for a non-expired lock key, release returns true and
deletes the key iff the stored value is non-empty and equals the token; on
false the stored state is untouched, and after a successful release a second
release with the same token returns false. -/
theorem C9_release_owned (k : LockKey) (tok : String) (now : Int)
    (hexp : lockIsExpired k now = false) :
    ((releaseAccountLock k tok now).1 = true ↔
        (k.value = some tok ∧ tok ≠ "")) ∧
    ((releaseAccountLock k tok now).1 = true →
        (releaseAccountLock k tok now).2 = ⟨none, none⟩ ∧
        (releaseAccountLock (releaseAccountLock k tok now).2 tok now).1
          = false) ∧
    ((releaseAccountLock k tok now).1 = false →
        (releaseAccountLock k tok now).2 = k) := by
  have hgNone : lockGet (⟨none, none⟩ : LockKey) now = (none, ⟨none, none⟩)
    := rfl
  cases hkv : k.value with
  | none =>
    have hg : lockGet k now = (none, k) := by simp [lockGet, hexp, hkv]
    refine ⟨?_, ?_, ?_⟩ <;> simp [releaseAccountLock, hg, hkv]
  | some v =>
    have hg : lockGet k now = (if v = "" then none else some v, k) := by
      simp [lockGet, hexp, hkv]
    by_cases hv : v = ""
    · subst hv
      refine ⟨?_, ?_, ?_⟩ <;> simp [releaseAccountLock, hg, hkv] <;> tauto
    · by_cases htok : v = tok
      · subst htok
        refine ⟨?_, ?_, ?_⟩ <;>
          simp [releaseAccountLock, hg, hgNone, hkv, hv]
      · refine ⟨?_, ?_, ?_⟩ <;>
          simp [releaseAccountLock, hg, hkv, hv, htok]

/-- Claim C9 witness: an owned, non-empty token releases successfully. -/
theorem C9_release_owned_witness :
    lockIsExpired ⟨some "A", none⟩ 0 = false ∧
    ((releaseAccountLock ⟨some "A", none⟩ "A" 0).1 = true ↔
        (LockKey.value ⟨some "A", none⟩ = some "A" ∧ ("A" : String) ≠ "")) :=
  ⟨by decide, (C9_release_owned ⟨some "A", none⟩ "A" 0 (by decide)).1⟩

/-! ### Claim C4 -/

/-- Claim C4 counterexample: with a raised backend error, `getConcurrency`
and `refreshConcurrencyLease` swallow the error and return the substitute
count 0 — here the key in fact holds one live lease — contradicting the
claim that they propagate backend errors unchanged. -/
theorem C4_counterexample :
    getConcurrency (Except.error "store unavailable")
        ⟨some [("r1", 99999)], none⟩ 0
      = (0, ⟨some [("r1", 99999)], none⟩) ∧
    refreshConcurrencyLease (Except.error "store unavailable") ⟨300, 30, 30⟩
        ⟨some [("r1", 99999)], none⟩ "r1" none 0
      = (0, ⟨some [("r1", 99999)], none⟩) := by decide

/-- Claim C4 (amended): `incrConcurrency` and `decrConcurrency` re-raise a
backend error to the caller, while `getConcurrency` and
`refreshConcurrencyLease` catch it and return 0 as a substitute value. -/
theorem C4_error_paths (cfg : CConfig) (c : CKey) (rid : String)
    (ls : Option Int) (now : Int) (e : String) (hrid : rid ≠ "") :
    incrConcurrency (Except.error e) cfg c rid ls now = Except.error e ∧
    decrConcurrency (Except.error e) c rid now = Except.error e ∧
    getConcurrency (Except.error e) c now = (0, c) ∧
    refreshConcurrencyLease (Except.error e) cfg c rid ls now = (0, c) := by
  refine ⟨?_, rfl, rfl, ?_⟩ <;>
    simp [incrConcurrency, refreshConcurrencyLease, hrid]

/-- Claim C4 witness: the error paths at a concrete input. -/
theorem C4_error_paths_witness :
    ("r1" : String) ≠ "" ∧
    incrConcurrency (Except.error "boom") ⟨300, 30, 30⟩ ⟨none, none⟩ "r1"
        none 0 = Except.error "boom" :=
  ⟨by decide,
   (C4_error_paths ⟨300, 30, 30⟩ ⟨none, none⟩ "r1" none 0 "boom"
     (by decide)).1⟩

/-! ### Claim C3 -/

/-- The expire commands of a batch, as (key, seconds) pairs in order. -/
def expireCmds (l : List MCmd) : List (String × Int) :=
  l.filterMap (fun c => match c with
    | MCmd.expire k s => some (k, s)
    | _ => none)

/-- Claim C3 counterexample: the "every non-total bucket" claim fails in two
ways. The per-model daily buckets (global `usage:model:daily:...` and
per-key `usage:<key>:model:daily:...`) are written by `incrementTokenUsage`
on every request yet receive no expire command at all — no expire in the
batch targets their keys. And the cost buckets written by
`incrementDailyCost` do not carry the stated daily (32 days) and monthly
(365 days) TTLs; the code writes 30 days and 90 days instead. -/
theorem C3_counterexample :
    MCmd.hincrby "usage:model:daily:claude-3:2026-01-01" "requests" 1
        ∈ incrementTokenUsagePipeline "k1" 100 10 5 0 0 "claude-3" 0 0 false
            "2026-01-01" "2026-01" "2026-01-01:10" 29400000 5 ∧
    "usage:model:daily:claude-3:2026-01-01"
        ∉ (expireCmds (incrementTokenUsagePipeline "k1" 100 10 5 0 0
            "claude-3" 0 0 false "2026-01-01" "2026-01" "2026-01-01:10"
            29400000 5)).map Prod.fst ∧
    MCmd.hincrby "usage:k1:model:daily:claude-3:2026-01-01" "requests" 1
        ∈ incrementTokenUsagePipeline "k1" 100 10 5 0 0 "claude-3" 0 0 false
            "2026-01-01" "2026-01" "2026-01-01:10" 29400000 5 ∧
    "usage:k1:model:daily:claude-3:2026-01-01"
        ∉ (expireCmds (incrementTokenUsagePipeline "k1" 100 10 5 0 0
            "claude-3" 0 0 false "2026-01-01" "2026-01" "2026-01-01:10"
            29400000 5)).map Prod.fst ∧
    MCmd.expire "usage:cost:daily:k1:2026-01-01" (86400 * 32)
        ∉ incrementDailyCostOps "k1" 1 "2026-01-01" "2026-01" "2026-01-01:10" ∧
    MCmd.expire "usage:cost:daily:k1:2026-01-01" (86400 * 30)
        ∈ incrementDailyCostOps "k1" 1 "2026-01-01" "2026-01" "2026-01-01:10" ∧
    MCmd.expire "usage:cost:monthly:k1:2026-01" (86400 * 365)
        ∉ incrementDailyCostOps "k1" 1 "2026-01-01" "2026-01" "2026-01-01:10" ∧
    MCmd.expire "usage:cost:monthly:k1:2026-01" (86400 * 90)
        ∈ incrementDailyCostOps "k1" 1 "2026-01-01" "2026-01" "2026-01-01:10"
    := by decide

/-- Claim C3 (amended): the expire commands issued by `incrementTokenUsage`
are exactly four — the per-key daily bucket at 32 days, the per-key monthly
bucket at 365 days, the per-key hourly bucket at 7 days, and the system
per-minute bucket at twice the metrics window — so the per-model daily
buckets (global and per-key), although written on every request, receive no
TTL; and the expire commands issued by `incrementDailyCost` are exactly
three — the daily cost bucket at 30 days, the monthly cost bucket at
90 days, and the hourly cost bucket at 7 days. -/
theorem C3_meter_ttls (keyId : String)
    (tokens inputTokens outputTokens cacheCreateTokens cacheReadTokens :
      Int) (normalizedModel : String) (eph5 eph1 : Int) (isLC : Bool)
    (today currentMonth currentHour : String) (minuteTimestamp : Int)
    (metricsWindow : Int) (amount : Rat) :
    expireCmds (incrementTokenUsagePipeline keyId tokens inputTokens
        outputTokens cacheCreateTokens cacheReadTokens normalizedModel eph5
        eph1 isLC today currentMonth currentHour minuteTimestamp
        metricsWindow)
      = [("usage:daily:" ++ keyId ++ ":" ++ today, 86400 * 32),
         ("usage:monthly:" ++ keyId ++ ":" ++ currentMonth, 86400 * 365),
         ("usage:hourly:" ++ keyId ++ ":" ++ currentHour, 86400 * 7),
         ("system:metrics:minute:" ++ toString minuteTimestamp,
           metricsWindow * 60 * 2)] ∧
    MCmd.hincrby ("usage:model:daily:" ++ normalizedModel ++ ":" ++ today)
        "requests" 1
      ∈ incrementTokenUsagePipeline keyId tokens inputTokens outputTokens
          cacheCreateTokens cacheReadTokens normalizedModel eph5 eph1 isLC
          today currentMonth currentHour minuteTimestamp metricsWindow ∧
    MCmd.hincrby ("usage:" ++ keyId ++ ":model:daily:" ++ normalizedModel
        ++ ":" ++ today) "requests" 1
      ∈ incrementTokenUsagePipeline keyId tokens inputTokens outputTokens
          cacheCreateTokens cacheReadTokens normalizedModel eph5 eph1 isLC
          today currentMonth currentHour minuteTimestamp metricsWindow ∧
    expireCmds (incrementDailyCostOps keyId amount today currentMonth
        currentHour)
      = [("usage:cost:daily:" ++ keyId ++ ":" ++ today, 86400 * 30),
         ("usage:cost:monthly:" ++ keyId ++ ":" ++ currentMonth, 86400 * 90),
         ("usage:cost:hourly:" ++ keyId ++ ":" ++ currentHour, 86400 * 7)]
    := by
  refine ⟨?_, ?_, ?_, ?_⟩ <;>
    cases isLC <;>
    simp [incrementTokenUsagePipeline, incrementDailyCostOps, expireCmds]

end CRS
